import Mathlib

/-!
Verification of the voice session state machine of the voice-first-guide
repository. The definitions below are a shallow embedding of
src/hooks/useSpeech.ts (speech capture and playback controller) and of
src/components/SupportInterface.tsx (session orchestration). State held in
React state hooks and refs becomes fields of an explicit state record;
the browser event callbacks (onresult, onerror, onend, utterance
callbacks) and the timer callbacks become step functions on that record.
-/

namespace VoiceGuide

/-- Voice state enum from src/types/support: idle, listening, processing, speaking. -/
inductive VoiceState where
  | idle
  | listening
  | processing
  | speaking
  deriving DecidableEq, Repr

/-- One entry of the platform result list seen by recognition.onresult:
the isFinal flag together with result[0].transcript. -/
structure SpeechResult where
  isFinal : Bool
  text : String
  deriving DecidableEq, Repr

/-- The error kinds dispatched by recognition.onerror in useSpeech.ts:
not-allowed, network, no-speech, audio-capture, aborted, and the default case. -/
inductive RecError where
  | notAllowed
  | network
  | noSpeech
  | audioCapture
  | aborted
  | other
  deriving DecidableEq, Repr

/-- State of the useSpeech hook. React useState values and useRef cells become
fields. recognitionActive models recognitionRef: none when the ref is null,
some b when a recognition object exists with b recording whether it is started.
errorTimer and silenceTimer model the pending setTimeout handles, holding the
delay in milliseconds they were armed with. supported models the presence of
window.SpeechRecognition, fixed at mount. -/
structure SpeechState where
  supported : Bool
  voiceState : VoiceState
  transcript : String
  isMuted : Bool
  errorMessage : Option String
  isMicAvailable : Bool
  recognitionActive : Option Bool
  isListeningRef : Bool
  errorTimer : Option Nat
  finalTranscriptRef : String
  silenceTimer : Option Nat
  deriving DecidableEq, Repr

/-- Initial hook state at mount: idle, empty transcript, mic available exactly
when the recognition capability exists. -/
def initState (supported : Bool) : SpeechState :=
  { supported := supported
    voiceState := .idle
    transcript := ""
    isMuted := false
    errorMessage := none
    isMicAvailable := supported
    recognitionActive := none
    isListeningRef := false
    errorTimer := none
    finalTranscriptRef := ""
    silenceTimer := none }

/-- clearErrorAfterDelay from useSpeech.ts: replaces any pending error-clear
timeout with a fresh one of the given delay (source default 3000 ms). -/
def clearErrorAfterDelay (s : SpeechState) (delay : Nat) : SpeechState :=
  { s with errorTimer := some delay }

/-- startListening from useSpeech.ts. When the capability is missing it flips
isMicAvailable and surfaces a message. Otherwise it clears the previous error
and its timeout, cancels ongoing synthesis, marks user intent, creates the
recognition object if the ref is null, resets the transcript state and the
final-transcript ref, sets voiceState listening, and calls start on the handle.
The platform raises the already-started exception exactly when the handle is
already started; the catch branch recognises that message and sets voiceState
listening again. -/
def startListening (s : SpeechState) : SpeechState :=
  if !s.supported then
    { s with isMicAvailable := false
             errorMessage := some "Voice input not supported in this browser." }
  else
    let s1 := { s with errorMessage := none, errorTimer := none, isListeningRef := true }
    let s2 :=
      if s1.recognitionActive = none then { s1 with recognitionActive := some false } else s1
    match s2.recognitionActive with
    | some true =>
        { s2 with voiceState := .listening, transcript := "", finalTranscriptRef := "" }
    | _ =>
        { s2 with voiceState := .listening, transcript := "", finalTranscriptRef := ""
                  recognitionActive := some true }

/-- stopListening from useSpeech.ts: clears the user intent flag, requests the
handle to stop inside a try/catch that swallows any exception, clears the
silence timer, and sets voiceState idle. -/
def stopListening (s : SpeechState) : SpeechState :=
  let s1 := { s with isListeningRef := false }
  let s2 :=
    match s1.recognitionActive with
    | some _ => { s1 with recognitionActive := some false }
    | none => s1
  { s2 with silenceTimer := none, voiceState := .idle }

/-- The loop inside recognition.onresult: walk the full result list from index
zero, appending final segments to fullFinal and the rest to currentInterim. -/
def scanResults (results : List SpeechResult) : String × String :=
  results.foldl
    (fun acc r => if r.isFinal then (acc.1 ++ r.text, acc.2) else (acc.1, acc.2 ++ r.text))
    ("", "")

/-- recognition.onresult from useSpeech.ts: rebuild the transcript from the
whole result list, store the final part in the final-transcript ref, display
final plus interim, clear the silence timer, and re-arm it at 2500 ms when the
rebuilt text is non-empty. -/
def onResult (results : List SpeechResult) (s : SpeechState) : SpeechState :=
  let fullFinal := (scanResults results).1
  let currentInterim := (scanResults results).2
  let s1 := { s with finalTranscriptRef := fullFinal
                     transcript := fullFinal ++ currentInterim
                     silenceTimer := none }
  if fullFinal ≠ "" ∨ currentInterim ≠ "" then
    { s1 with silenceTimer := some 2500 }
  else s1

/-- recognition.onerror from useSpeech.ts, one branch per error kind. Only the
not-allowed branch touches isMicAvailable. The network, no-speech and default
branches arm the 3000 ms error-clear timer, audio-capture arms a 5000 ms one,
aborted sets no message at all. The no-speech and aborted branches keep the
recognition ref; the others null it. -/
def onError (e : RecError) (s : SpeechState) : SpeechState :=
  match e with
  | .notAllowed =>
      { s with isMicAvailable := false
               errorMessage := some "Microphone access denied. Please allow access in browser settings."
               isListeningRef := false, voiceState := .idle, recognitionActive := none }
  | .network =>
      let s1 := clearErrorAfterDelay
        { s with errorMessage := some "Network error. Tap mic to try again." } 3000
      { s1 with isListeningRef := false, voiceState := .idle, recognitionActive := none }
  | .noSpeech =>
      let s1 := clearErrorAfterDelay
        { s with errorMessage := some "No speech detected. Tap mic to try again." } 3000
      { s1 with isListeningRef := false, voiceState := .idle }
  | .audioCapture =>
      let s1 := clearErrorAfterDelay
        { s with errorMessage := some "Could not capture audio. Check your microphone." } 5000
      { s1 with isListeningRef := false, voiceState := .idle, recognitionActive := none }
  | .aborted =>
      { s with isListeningRef := false, voiceState := .idle }
  | .other =>
      let s1 := clearErrorAfterDelay
        { s with errorMessage := some "Voice error. Tap mic to try again." } 3000
      { s1 with isListeningRef := false, voiceState := .idle, recognitionActive := none }

/-- recognition.onend from useSpeech.ts: when the user intent flag and the mic
capability are still set, restart the handle (a throwing restart is caught and
stops gracefully); otherwise set voiceState idle. -/
def onEnd (s : SpeechState) : SpeechState :=
  if s.isListeningRef && s.isMicAvailable then
    match s.recognitionActive with
    | some false => { s with recognitionActive := some true }
    | _ => { s with isListeningRef := false, voiceState := .idle }
  else
    { s with voiceState := .idle }

/-- The JavaScript String.prototype.trim: strip leading and trailing
whitespace. Written over the character list so it evaluates by rfl. -/
def jsTrim (s : String) : String :=
  String.mk (((s.toList.dropWhile Char.isWhitespace).reverse.dropWhile
    Char.isWhitespace).reverse)

/-- The JavaScript String.prototype.startsWith test, written over the
character list so it evaluates by rfl. -/
def strStartsWith (s pat : String) : Bool :=
  pat.toList.isPrefixOf s.toList

/-- A speech synthesis voice: its name and its BCP-47 language tag. -/
structure Voice where
  name : String
  lang : String
  deriving DecidableEq, Repr

/-- Substring occurrence test on character lists, written recursively:
pat occurs in a list when it starts there or occurs in the tail. -/
def charsIncludes (pat : List Char) : List Char → Bool
  | [] => pat.isEmpty
  | c :: cs => pat.isPrefixOf (c :: cs) || charsIncludes pat cs

/-- The JavaScript String.includes test: pat occurs somewhere in s. -/
def strIncludes (s pat : String) : Bool :=
  charsIncludes pat.toList s.toList

/-- The fixed priority list preferredMaleVoiceNames from the speak function. -/
def preferredMaleVoiceNames : List String :=
  ["Google US English Male", "Microsoft David", "Microsoft Guy Online", "Alex",
   "Daniel", "Aaron", "Google US English", "Microsoft Mark", "Fred"]

/-- The fixed given-name list maleNames from the speak function. -/
def maleNames : List String :=
  ["david", "james", "mark", "guy", "alex", "aaron", "fred"]

/-- The usEnglishVoices filter from speak: keep voices whose lang equals en-US
or starts with en-US. -/
def usEnglishFilter (voices : List Voice) : List Voice :=
  voices.filter (fun v => decide (v.lang = "en-US") || strStartsWith v.lang "en-US")

/-- The first selection loop of speak: walk the priority names in order and
return the first US-English voice whose name includes the current entry. -/
def findByNames (us : List Voice) : List String → Option Voice
  | [] => none
  | n :: rest =>
    match us.find? (fun v => strIncludes v.name n) with
    | some v => some v
    | none => findByNames us rest

/-- The full voice selection ladder of speak: priority names, then a male
marker in the lowercased name, then the given-name list, then the first
US-English voice, then any voice whose lang starts with en, then the first
voice of the platform list, else none. -/
def selectVoice (voices : List Voice) : Option Voice :=
  let usEnglishVoices := usEnglishFilter voices
  let sel1 := findByNames usEnglishVoices preferredMaleVoiceNames
  let sel2 :=
    match sel1 with
    | some v => some v
    | none => usEnglishVoices.find? (fun v => strIncludes v.name.toLower "male")
  let sel3 :=
    match sel2 with
    | some v => some v
    | none =>
      usEnglishVoices.find? (fun v => maleNames.any (fun n => strIncludes v.name.toLower n))
  let sel4 :=
    match sel3 with
    | some v => some v
    | none => usEnglishVoices.head?
  match sel4 with
  | some v => some v
  | none =>
    match voices.find? (fun v => strStartsWith v.lang "en") with
    | some v => some v
    | none => voices.head?

/-- The utterance built by speak: fixed rate 0.95, pitch 0.95, volume 1,
locale en-US, and the voice chosen by the selection ladder (none means the
platform default voice is used). -/
structure Utterance where
  text : String
  rate : ℚ
  pitch : ℚ
  volume : ℚ
  lang : String
  voice : Option Voice
  deriving DecidableEq, Repr

/-- Construction of the utterance in speak, given the platform voice list. -/
def mkUtterance (text : String) (voices : List Voice) : Utterance :=
  { text := text, rate := 0.95, pitch := 0.95, volume := 1, lang := "en-US"
    voice := selectVoice voices }

/-- speak from useSpeech.ts: a no-op when muted, otherwise it cancels ongoing
synthesis and hands the built utterance to the platform. The hook state is
unchanged until the utterance lifecycle callbacks fire. -/
def speak (text : String) (voices : List Voice) (s : SpeechState) :
    SpeechState × Option Utterance :=
  if s.isMuted then (s, none)
  else (s, some (mkUtterance text voices))

/-- utterance.onstart from speak: voiceState becomes speaking. -/
def onUttStart (s : SpeechState) : SpeechState :=
  { s with voiceState := .speaking }

/-- utterance.onend from speak: voiceState becomes idle, then startListening is
invoked exactly when document.visibilityState is visible. -/
def onUttEnd (visible : Bool) (s : SpeechState) : SpeechState :=
  let s1 := { s with voiceState := .idle }
  if visible then startListening s1 else s1

/-- utterance.onerror from speak: voiceState becomes idle and nothing else
changes; in particular no error message is set. -/
def onUttError (s : SpeechState) : SpeechState :=
  { s with voiceState := .idle }

/-- stopSpeaking from useSpeech.ts: cancel synthesis, voiceState idle. -/
def stopSpeaking (s : SpeechState) : SpeechState :=
  { s with voiceState := .idle }

/-- toggleMute from useSpeech.ts: flip the mute flag (and cancel synthesis when
muting, which has no further effect on the modelled state). -/
def toggleMute (s : SpeechState) : SpeechState :=
  { s with isMuted := !s.isMuted }

/-- clearTranscript from useSpeech.ts: empty the transcript state and the
final-transcript ref. -/
def clearTranscript (s : SpeechState) : SpeechState :=
  { s with transcript := "", finalTranscriptRef := "" }

/-- Firing of the error-clear timeout armed by clearErrorAfterDelay: the error
message is cleared. A no-op when no timeout is pending. -/
def fireErrorTimer (s : SpeechState) : SpeechState :=
  match s.errorTimer with
  | some _ => { s with errorMessage := none, errorTimer := none }
  | none => s

/-- Firing of the silence timeout armed in onresult: its callback calls the
stopListening function of the hook. A no-op when no timeout is pending. -/
def fireSilenceTimer (s : SpeechState) : SpeechState :=
  match s.silenceTimer with
  | some _ => stopListening { s with silenceTimer := none }
  | none => s

/-- The isListening flag of the hook return value, derived from voiceState. -/
def isListening (s : SpeechState) : Bool :=
  decide (s.voiceState = .listening)

/-- The isSpeaking flag of the hook return value, derived from voiceState. -/
def isSpeaking (s : SpeechState) : Bool :=
  decide (s.voiceState = .speaking)

/-- The events driving the hook: the exposed operations of its return value,
the recognition callbacks, the utterance callbacks, and the timer firings. -/
inductive Event where
  | start
  | stop
  | result (results : List SpeechResult)
  | recError (e : RecError)
  | recEnd
  | speakReq (text : String) (voices : List Voice)
  | uttStart
  | uttEnd (visible : Bool)
  | uttError
  | stopSpeak
  | mute
  | clearT
  | fireError
  | fireSilence
  deriving DecidableEq, Repr

/-- One step of the hook state machine, dispatching on the event. -/
def step (e : Event) (s : SpeechState) : SpeechState :=
  match e with
  | .start => startListening s
  | .stop => stopListening s
  | .result rs => onResult rs s
  | .recError err => onError err s
  | .recEnd => onEnd s
  | .speakReq t vs => (speak t vs s).1
  | .uttStart => onUttStart s
  | .uttEnd b => onUttEnd b s
  | .uttError => onUttError s
  | .stopSpeak => stopSpeaking s
  | .mute => toggleMute s
  | .clearT => clearTranscript s
  | .fireError => fireErrorTimer s
  | .fireSilence => fireSilenceTimer s

/-- Running a list of events from a state. -/
def run (s : SpeechState) : List Event → SpeechState
  | [] => s
  | e :: rest => run (step e s) rest

/-- State of SupportInterface.tsx on top of the hook: the list of messages
submitted to the remote agent through sendMessage, the processingRef guard, and
handlerTranscript, the transcript value captured by the current
handleStopListening and handleVoiceSubmit closures. Both callbacks list the
transcript in their dependency arrays, so every committed render with a changed
transcript recreates them with a fresh capture. -/
structure OrchState where
  speech : SpeechState
  submitted : List String
  processing : Bool
  handlerTranscript : String
  deriving DecidableEq, Repr

/-- Orchestrator state at mount. -/
def orchInit (supported : Bool) : OrchState :=
  { speech := initState supported
    submitted := []
    processing := false
    handlerTranscript := "" }

/-- The re-render after an event is processed: useCallback recreates the
handlers because the transcript is in their dependency arrays, so the captured
transcript becomes the current one. Events dispatched later run against these
fresh closures. -/
def rerender (o : OrchState) : OrchState :=
  { o with handlerTranscript := o.speech.transcript }

/-- handleVoiceSubmit from SupportInterface.tsx: return early when the trimmed
captured transcript is empty or a submission is in flight; otherwise take the
trimmed message, clear the transcript, and send the message to the agent. -/
def handleVoiceSubmit (o : OrchState) : OrchState :=
  if jsTrim o.handlerTranscript = "" ∨ o.processing = true then o
  else
    let message := jsTrim o.handlerTranscript
    let o1 := { o with speech := clearTranscript o.speech }
    { o1 with submitted := o1.submitted ++ [message] }

/-- handleStopListening from SupportInterface.tsx: stop the hook, then submit
when the captured transcript is non-empty after trimming. -/
def handleStopListening (o : OrchState) : OrchState :=
  let o1 := { o with speech := stopListening o.speech }
  if jsTrim o1.handlerTranscript ≠ "" then handleVoiceSubmit o1 else o1

/-- Events of the orchestrated component: any hook event, plus the voice
button handlers. The silence timeout is a hook event: its callback invokes only
the stopListening of the hook, not handleStopListening. -/
inductive OrchEvent where
  | voice (e : Event)
  | stopClick
  | startClick

/-- One step of the component: process the event, then re-render, so that the
closures dispatched on the next event capture the current transcript. -/
def orchStep (e : OrchEvent) (o : OrchState) : OrchState :=
  rerender
    (match e with
      | .voice ev => { o with speech := step ev o.speech }
      | .stopClick => handleStopListening o
      | .startClick => { o with speech := startListening o.speech })

/-- Running a list of component events from a state. -/
def orchRun (o : OrchState) : List OrchEvent → OrchState
  | [] => o
  | e :: rest => orchRun (orchStep e o) rest


/-! Helper lemmas shared by the claim theorems. -/

/-- The transcript displayed after onresult is rebuilt from the result list of
that event alone: the prior state does not contribute. -/
theorem onResult_rebuild : ∀ (rs : List SpeechResult) (s : SpeechState),
    (onResult rs s).transcript = (scanResults rs).1 ++ (scanResults rs).2 := by
  intro rs s
  simp only [onResult]
  split <;> rfl

/-- Firing either pending timer from an idle state leaves the state idle. -/
theorem timers_keep_idle : ∀ s : SpeechState, s.voiceState = .idle →
    (fireErrorTimer s).voiceState = .idle ∧ (fireSilenceTimer s).voiceState = .idle := by
  intro s h
  constructor
  · cases he : s.errorTimer <;> simp [fireErrorTimer, he, h]
  · cases hs : s.silenceTimer <;> simp [fireSilenceTimer, hs, h, stopListening]

/-- No event of the hook ever turns isMicAvailable back on. -/
theorem step_mic_monotone : ∀ (s : SpeechState) (ev : Event),
    s.isMicAvailable = false → (step ev s).isMicAvailable = false := by
  intro s ev h
  cases ev <;>
    simp only [step, startListening, stopListening, onResult, onError, onEnd, speak,
      onUttStart, onUttEnd, onUttError, stopSpeaking, toggleMute, clearTranscript,
      fireErrorTimer, fireSilenceTimer, clearErrorAfterDelay] <;>
    repeat' (first | exact h | rfl | split)

/-- Every component step ends in a re-render, so the closure capture equals the
current transcript afterwards. -/
theorem orchStep_sync : ∀ (e : OrchEvent) (o : OrchState),
    (orchStep e o).handlerTranscript = (orchStep e o).speech.transcript := by
  intro e o
  cases e <;> rfl

/-- Along any component run the closure capture tracks the live transcript. -/
theorem orchRun_sync : ∀ (es : List OrchEvent) (o : OrchState),
    o.handlerTranscript = o.speech.transcript →
    (orchRun o es).handlerTranscript = (orchRun o es).speech.transcript := by
  intro es
  induction es with
  | nil => intro o h; exact h
  | cons e rest ih => intro o h; exact ih (orchStep e o) (orchStep_sync e o)

/-! Claim theorems. -/

/-- C1, counterexample. The claim asserts that a network recognition error
schedules an automatic retry of startListening with backoff 1s, 2s, 4s and
that an error message is surfaced only after three attempts are exhausted.
In the code, one single network error already surfaces the message, arms only
its 3000 ms auto-clear timeout, and schedules nothing else: the full state
after the error is enumerated and contains no pending retry, and firing every
pending timer leaves the controller idle instead of re-entering listening. -/
theorem C1_counterexample :
    run (initState true) [.start, .recError .network]
      = { supported := true, voiceState := .idle, transcript := "", isMuted := false
          errorMessage := some "Network error. Tap mic to try again.", isMicAvailable := true
          recognitionActive := none, isListeningRef := false, errorTimer := some 3000
          finalTranscriptRef := "", silenceTimer := none }
    ∧ (run (initState true) [.start, .recError .network, .fireError, .fireSilence]).voiceState
        = .idle
    ∧ (run (initState true) [.start, .recError .network, .fireError]).errorMessage = none :=
  ⟨rfl, rfl, rfl⟩

/-- C1, amended. A network recognition error immediately surfaces the soft
message Network error. Tap mic to try again., arms its 3000 ms auto-clear
timeout, clears the intent flag, drops the recognition handle and returns to
idle; no retry is ever scheduled: any sequence of timer firings after the
error leaves voiceState idle, and stopListening cancels the silence timer. -/
theorem C1_network_no_retry : ∀ s : SpeechState,
    onError .network s
      = { s with errorMessage := some "Network error. Tap mic to try again."
                 errorTimer := some 3000, isListeningRef := false
                 voiceState := .idle, recognitionActive := none }
    ∧ (∀ l : List Bool,
        (l.foldl (fun st b => if b then fireErrorTimer st else fireSilenceTimer st)
          (onError .network s)).voiceState = .idle)
    ∧ (stopListening s).silenceTimer = none := by
  intro s
  refine ⟨rfl, ?_, ?_⟩
  · intro l
    have hinit : (onError RecError.network s).voiceState = .idle := rfl
    generalize onError RecError.network s = st at hinit ⊢
    induction l generalizing st with
    | nil => exact hinit
    | cons b rest ih =>
      cases b
      · exact ih _ ((timers_keep_idle st hinit).2)
      · exact ih _ ((timers_keep_idle st hinit).1)
  · cases h : s.recognitionActive <;> simp [stopListening, h]

/-- C2. The closures executed on a stop event always capture the transcript of
the latest committed render, so the submitted text is the transcript at the
moment the stop handler executes: along any run the capture equals the live
transcript; a stop on a non-blank capture submits exactly its trimmed value;
and in the concrete scenario of the claim, where a closure was first created
while the transcript was track and the transcript then grew to track my order
before the stop, the submitted text is track my order. -/
theorem C2_submission_uses_latest_transcript :
    (∀ (b : Bool) (es : List OrchEvent),
        (orchRun (orchInit b) es).handlerTranscript = (orchRun (orchInit b) es).speech.transcript)
    ∧ (∀ o : OrchState, o.processing = false → jsTrim o.handlerTranscript ≠ "" →
        (orchStep .stopClick o).submitted = o.submitted ++ [jsTrim o.handlerTranscript])
    ∧ (orchRun (orchInit true)
        [.voice .start, .voice (.result [⟨false, "track"⟩])]).handlerTranscript = "track"
    ∧ (orchRun (orchInit true)
        [.voice .start, .voice (.result [⟨false, "track"⟩]),
         .voice (.result [⟨false, "track my order"⟩]), .stopClick]).submitted
        = ["track my order"] := by
  refine ⟨fun b es => orchRun_sync es (orchInit b) rfl, ?_, rfl, by rfl⟩
  intro o h1 h2
  simp [orchStep, handleStopListening, handleVoiceSubmit, rerender, h1, h2]

/-- C2, witness: the general submit conjunct applied at a concrete component
state reached after capturing the text hi. -/
theorem C2_witness :
    (orchStep .stopClick (orchRun (orchInit true)
        [.voice .start, .voice (.result [⟨false, "hi"⟩])])).submitted
      = (orchRun (orchInit true)
          [.voice .start, .voice (.result [⟨false, "hi"⟩])]).submitted
        ++ [jsTrim (orchRun (orchInit true)
            [.voice .start, .voice (.result [⟨false, "hi"⟩])]).handlerTranscript] :=
  C2_submission_uses_latest_transcript.2.1 _ rfl (by decide)

/-- C3. On every recognition update the displayed transcript is rebuilt from
the full result list of that event, independent of the previous state, so when
result index 0 is final on event one and indices 0 and 1 are final on event
two, the displayed transcript after event two is the concatenation of the two
final segments exactly once each, with the interim tail appended when present. -/
theorem C3_no_duplication :
    (∀ (rs : List SpeechResult) (s : SpeechState),
        (onResult rs s).transcript = (scanResults rs).1 ++ (scanResults rs).2)
    ∧ (∀ (s : SpeechState) (a b : String),
        (onResult [⟨true, a⟩, ⟨true, b⟩] (onResult [⟨true, a⟩] s)).transcript = a ++ b)
    ∧ (∀ (s : SpeechState) (a b c : String),
        (onResult [⟨true, a⟩, ⟨true, b⟩, ⟨false, c⟩] (onResult [⟨true, a⟩] s)).transcript
          = (a ++ b) ++ c) := by
  refine ⟨onResult_rebuild, ?_, ?_⟩
  · intro s a b
    rw [onResult_rebuild]
    simp [scanResults]
  · intro s a b c
    rw [onResult_rebuild]
    simp [scanResults]

/-- C4, counterexample. The claim asserts that a second startListening during
an active session resets no state, in particular not the accumulated
transcript. In the code setTranscript and the final-transcript ref reset run
before start throws the already-started exception, so the second call wipes
the accumulated transcript hello to the empty string (the handle itself is
reused and stays unique). -/
theorem C4_counterexample :
    (run (initState true) [.start, .result [⟨true, "hello"⟩]]).transcript = "hello"
    ∧ (run (initState true) [.start, .result [⟨true, "hello"⟩]]).voiceState = .listening
    ∧ (startListening (run (initState true) [.start, .result [⟨true, "hello"⟩]])).transcript
        = ""
    ∧ (startListening
        (run (initState true) [.start, .result [⟨true, "hello"⟩]])).finalTranscriptRef = ""
    ∧ (startListening
        (run (initState true) [.start, .result [⟨true, "hello"⟩]])).recognitionActive
        = some true :=
  ⟨rfl, rfl, rfl, rfl, rfl⟩

/-- C4, amended. A second startListening while a session is active creates no
duplicate handle (the existing handle is reused and its already-started
exception is caught) and leaves voiceState listening, preserving the
at-most-one-handle invariant; but it is not a pure no-op: it clears the error
state, keeps the intent flag, and resets the accumulated transcript and the
final-transcript ref to empty. -/
theorem C4_start_on_active : ∀ s : SpeechState,
    s.supported = true → s.recognitionActive = some true →
    startListening s
      = { s with voiceState := .listening, transcript := "", finalTranscriptRef := ""
                 errorMessage := none, errorTimer := none, isListeningRef := true }
    ∧ (startListening s).recognitionActive = some true := by
  intro s hs hr
  constructor
  · simp [startListening, hs, hr]
  · simp [startListening, hs, hr]

/-- C4, witness: the amended theorem applied at the concrete state reached by
one successful start. -/
theorem C4_witness :
    startListening (run (initState true) [.start])
      = { run (initState true) [.start] with
          voiceState := .listening, transcript := "", finalTranscriptRef := ""
          errorMessage := none, errorTimer := none, isListeningRef := true } :=
  (C4_start_on_active (run (initState true) [.start]) rfl rfl).1

/-- C5, counterexample. The claim asserts that when the silence timer fires,
the stop is handled exactly as a manual stop, so a non-empty transcript is
submitted through the manual-stop path of the orchestrator. In the code the
timer callback invokes only the stopListening of the hook: after capturing
hello and letting the timer fire, nothing has been submitted even though the
non-empty transcript is still present and the controller is idle. -/
theorem C5_counterexample :
    (orchRun (orchInit true)
      [.voice .start, .voice (.result [⟨true, "hello"⟩])]).speech.silenceTimer = some 2500
    ∧ (orchRun (orchInit true)
        [.voice .start, .voice (.result [⟨true, "hello"⟩]),
         .voice .fireSilence]).submitted = []
    ∧ (orchRun (orchInit true)
        [.voice .start, .voice (.result [⟨true, "hello"⟩]),
         .voice .fireSilence]).speech.transcript = "hello"
    ∧ (orchRun (orchInit true)
        [.voice .start, .voice (.result [⟨true, "hello"⟩]),
         .voice .fireSilence]).speech.voiceState = .idle :=
  ⟨rfl, rfl, rfl, rfl⟩

/-- C5, amended. Every recognition update that yields non-empty text re-arms
the 2500 ms silence timer; when the timer fires it runs only the stopListening
of the hook, which stops recognition, clears the timer and returns to idle;
the transcript is not submitted, since the submitting handler of the
orchestrator runs only on an explicit user stop. -/
theorem C5_silence_timer : 
    (∀ (rs : List SpeechResult) (s : SpeechState),
        ((scanResults rs).1 ≠ "" ∨ (scanResults rs).2 ≠ "") →
        (onResult rs s).silenceTimer = some 2500)
    ∧ (∀ s : SpeechState, s.silenceTimer ≠ none →
        fireSilenceTimer s = stopListening { s with silenceTimer := none })
    ∧ (∀ o : OrchState, (orchStep (.voice .fireSilence) o).submitted = o.submitted) := by
  refine ⟨?_, ?_, fun o => rfl⟩
  · intro rs s h
    simp only [onResult]
    rw [if_pos h]
  · intro s h
    cases hs : s.silenceTimer with
    | none => exact absurd hs h
    | some d => simp [fireSilenceTimer, hs]

/-- C5, witness: the arming and firing conjuncts applied at a state that has
captured the text hello. -/
theorem C5_witness :
    (onResult [⟨true, "hello"⟩] (initState true)).silenceTimer = some 2500
    ∧ fireSilenceTimer (run (initState true) [.start, .result [⟨true, "hello"⟩]])
        = stopListening
            { run (initState true) [.start, .result [⟨true, "hello"⟩]] with
              silenceTimer := none } :=
  ⟨C5_silence_timer.1 [⟨true, "hello"⟩] (initState true) (by decide),
   C5_silence_timer.2.1 _ (by decide)⟩

/-- C6. Among the recognition error kinds only not-allowed flips isMicAvailable
to false, with a message and no auto-clear timer of its own; every other kind
leaves isMicAvailable unchanged; network, no-speech and unknown arm the 3000 ms
auto-clear, audio-capture the 5000 ms one, and the armed timer clears the
message; aborted sets no message and arms nothing; the message slot is a single
cell whose content after an error depends only on that latest error, so the
latest soft message replaces any earlier one; and no later event ever turns
isMicAvailable back on, so the not-allowed flip is permanent. -/
theorem C6_error_classification : ∀ s : SpeechState,
    ((onError .notAllowed s).isMicAvailable = false
      ∧ (onError .notAllowed s).errorMessage
          = some "Microphone access denied. Please allow access in browser settings."
      ∧ (onError .notAllowed s).errorTimer = s.errorTimer)
    ∧ (∀ e, e ≠ RecError.notAllowed → (onError e s).isMicAvailable = s.isMicAvailable)
    ∧ (onError .network s).errorTimer = some 3000
    ∧ (onError .noSpeech s).errorTimer = some 3000
    ∧ (onError .audioCapture s).errorTimer = some 5000
    ∧ (onError .other s).errorTimer = some 3000
    ∧ (fireErrorTimer (onError .network s)).errorMessage = none
    ∧ (onError .aborted s).errorMessage = s.errorMessage
    ∧ (onError .aborted s).errorTimer = s.errorTimer
    ∧ (∀ (s2 : SpeechState) (e : RecError), e ≠ RecError.aborted →
        (onError e s).errorMessage = (onError e s2).errorMessage)
    ∧ (∀ ev : Event, s.isMicAvailable = false → (step ev s).isMicAvailable = false) := by
  intro s
  refine ⟨⟨rfl, rfl, rfl⟩, ?_, rfl, rfl, rfl, rfl, rfl, rfl, rfl, ?_, fun ev => step_mic_monotone s ev⟩
  · intro e he
    cases e <;> first | rfl | exact absurd rfl he
  · intro s2 e he
    cases e <;> first | rfl | exact absurd rfl he

/-- C6, witness: the conditional conjuncts applied at concrete error kinds and
at a state whose capability was already flipped by not-allowed. -/
theorem C6_witness :
    (onError .network (initState true)).isMicAvailable = (initState true).isMicAvailable
    ∧ (onError .network (initState true)).errorMessage
        = (onError .network (onError .noSpeech (initState true))).errorMessage
    ∧ (step .stop (onError .notAllowed (initState true))).isMicAvailable = false :=
  ⟨(C6_error_classification (initState true)).2.1 .network (by decide),
   (C6_error_classification (initState true)).2.2.2.2.2.2.2.2.2.1
     (onError .noSpeech (initState true)) .network (by decide),
   (C6_error_classification (onError .notAllowed (initState true))).2.2.2.2.2.2.2.2.2.2
     .stop rfl⟩

/-- C7. Voice selection in speak is a total function of the available voice
list: on the empty list every rung of the ladder finds nothing and the
selection is none, so the utterance keeps the platform default voice and no
exception can arise; on any non-empty list the selection succeeds; the result
is determined by the list alone, so repeated calls on a fixed list agree; and
when none of the named or gendered rungs match, the selection falls back to
the first US-English voice, else any English-prefixed voice, else the first
voice of the list. -/
theorem C7_voice_ladder :
    selectVoice [] = none
    ∧ (∀ names, findByNames [] names = none)
    ∧ (∀ t : String, (mkUtterance t []).voice = none)
    ∧ (∀ vs : List Voice, vs ≠ [] → (selectVoice vs).isSome = true)
    ∧ (∀ vs1 vs2 : List Voice, vs1 = vs2 → selectVoice vs1 = selectVoice vs2)
    ∧ (∀ vs : List Voice,
        findByNames (usEnglishFilter vs) preferredMaleVoiceNames = none →
        (usEnglishFilter vs).find? (fun v => strIncludes v.name.toLower "male") = none →
        (usEnglishFilter vs).find?
          (fun v => maleNames.any (fun n => strIncludes v.name.toLower n)) = none →
        selectVoice vs =
          (match (usEnglishFilter vs).head? with
           | some v => some v
           | none =>
             match vs.find? (fun v => strStartsWith v.lang "en") with
             | some v => some v
             | none => vs.head?)) := by
  refine ⟨rfl, ?_, fun t => rfl, ?_, fun vs1 vs2 h => h ▸ rfl, ?_⟩
  · intro names
    induction names with
    | nil => rfl
    | cons n rest ih => simp [findByNames, ih]
  · intro vs h
    cases vs with
    | nil => exact absurd rfl h
    | cons v rest =>
      simp only [selectVoice]
      repeat' split
      all_goals simp_all
  · intro vs h1 h2 h3
    simp only [selectVoice, h1, h2, h3]

/-- C7, witness: the ladder applied to a one-element list with no US-English
voice, where all named and gendered rungs find nothing, the non-empty list
yields a selection, and the selection is the final fallback, the first voice. -/
theorem C7_witness :
    (selectVoice [⟨"Foo", "fr-FR"⟩]).isSome = true
    ∧ selectVoice [⟨"Foo", "fr-FR"⟩] = some ⟨"Foo", "fr-FR"⟩ :=
  ⟨C7_voice_ladder.2.2.2.1 [⟨"Foo", "fr-FR"⟩] (by decide),
   (C7_voice_ladder.2.2.2.2.2 [⟨"Foo", "fr-FR"⟩] rfl rfl rfl).trans rfl⟩

/-- C8. stopListening is idempotent and always safe: its embedding is a total
function whose source wraps the underlying stop call in a try/catch that
swallows the already-stopped exception, calling it twice equals calling it
once, and every call clears the user intent flag, cancels the silence timer
and leaves voiceState idle, so a subsequent platform onEnd does not
re-activate the handle. -/
theorem C8_stop_idempotent : ∀ s : SpeechState,
    stopListening (stopListening s) = stopListening s
    ∧ (stopListening s).voiceState = .idle
    ∧ (stopListening s).isListeningRef = false
    ∧ (stopListening s).silenceTimer = none
    ∧ (onEnd (stopListening s)).voiceState = .idle
    ∧ (onEnd (stopListening s)).recognitionActive = (stopListening s).recognitionActive := by
  intro s
  cases h : s.recognitionActive <;> simp [stopListening, onEnd, h]

/-- C9. Playback lifecycle callbacks drive the voice state: utterance start
sets speaking; utterance end sets idle and re-arms capture exactly when the
document is visible (given the recognition capability exists); utterance error
sets idle and is swallowed, leaving the error message and its timer untouched. -/
theorem C9_playback_callbacks : ∀ (s : SpeechState) (b : Bool),
    (onUttStart s).voiceState = .speaking
    ∧ (isListening (onUttEnd b s) = true ↔ (b = true ∧ s.supported = true))
    ∧ (onUttEnd false s).voiceState = .idle
    ∧ (s.supported = true → (onUttEnd true s).voiceState = .listening)
    ∧ (onUttError s).voiceState = .idle
    ∧ (onUttError s).errorMessage = s.errorMessage
    ∧ (onUttError s).errorTimer = s.errorTimer := by
  intro s b
  refine ⟨rfl, ?_, rfl, ?_, rfl, rfl, rfl⟩
  · cases b <;> cases hs : s.supported <;>
      simp [onUttEnd, startListening, isListening, hs] <;> split <;> rfl
  · intro hs
    simp [onUttEnd, startListening, hs]
    split <;> rfl

/-- C9, witness: the visible-end conjunct applied at the initial supported
state. -/
theorem C9_witness : (onUttEnd true (initState true)).voiceState = .listening :=
  (C9_playback_callbacks (initState true) true).2.2.2.1 rfl

/-- C10. In every state reachable by any event sequence, the exposed flags are
derived from the single voiceState value: isListening holds exactly in state
listening, isSpeaking exactly in state speaking, and the two are never both
true. -/
theorem C10_flags_coherent : ∀ (b : Bool) (es : List Event),
    (isListening (run (initState b) es) = true
      ↔ (run (initState b) es).voiceState = .listening)
    ∧ (isSpeaking (run (initState b) es) = true
      ↔ (run (initState b) es).voiceState = .speaking)
    ∧ ¬(isListening (run (initState b) es) = true
        ∧ isSpeaking (run (initState b) es) = true) := by
  intro b es
  generalize run (initState b) es = s
  refine ⟨by simp [isListening], by simp [isSpeaking], ?_⟩
  rintro ⟨h1, h2⟩
  simp [isListening] at h1
  simp [isSpeaking] at h2
  rw [h1] at h2
  cases h2

/-- C10, witness: the coherence facts at a concrete reachable listening state. -/
theorem C10_witness :
    (isListening (run (initState true) [.start]) = true
      ↔ (run (initState true) [.start]).voiceState = .listening)
    ∧ ¬(isListening (run (initState true) [.start]) = true
        ∧ isSpeaking (run (initState true) [.start]) = true) :=
  ⟨(C10_flags_coherent true [.start]).1, (C10_flags_coherent true [.start]).2.2⟩

end VoiceGuide
